import Mathlib

/-!
Verification of the AWS AI Practitioner quiz application (app.py and
session_optimizer.py) against its natural-language specification.

Python dicts are modelled as association lists in insertion order with
unique keys; Python `None` as `Option.none`; fallible code (KeyError,
ValueError, IndexError) as `Option`/`Except`.  Randomness
(`random.shuffle`, `random.sample`) is made explicit: shuffles are
parametrised by the permutation they produce, and `random.sample` is
modelled by a fixed representative selection of the right length, since
the properties proved below depend only on the multiset/length of the
result.
-/

namespace AwsQuiz

/-- Python dict lookup `d.get(k)` / `d[k]` on an insertion-ordered
association list (keys unique, so the first binding is the binding). -/
def dictGet? {β : Type} (d : List (String × β)) (k : String) : Option β :=
  (d.find? (fun p => p.1 == k)).map (fun p => p.2)

/-- Python dict assignment `d[k] = v`: replace the binding in place when
the key exists, otherwise append (preserving insertion order). -/
def dictInsert {β : Type} (d : List (String × β)) (k : String) (v : β) :
    List (String × β) :=
  if d.any (fun p => p.1 == k) then
    d.map (fun p => if p.1 == k then (k, v) else p)
  else d ++ [(k, v)]


/-! ## JSON model

`session_optimizer.estimate_session_size` serializes a sample dict with
`json.dumps(..., ensure_ascii=False)` and multiplies the resulting
character count by the question count.  We model JSON values and the
exact output of `json.dumps` with its default separators. -/

inductive Json where
  | null : Json
  | bool (b : Bool) : Json
  | int (n : Int) : Json
  | str (s : String) : Json
  | arr (xs : List Json) : Json
  | obj (fs : List (String × Json)) : Json

/-- Lowercase hex digit. -/
def hexDigit (n : Nat) : Char :=
  if n < 10 then Char.ofNat (48 + n) else Char.ofNat (87 + n)

/-- Four-digit lowercase hex, as in Python's \u escapes. -/
def hex4 (n : Nat) : String :=
  String.mk [hexDigit (n / 4096 % 16), hexDigit (n / 256 % 16),
             hexDigit (n / 16 % 16), hexDigit (n % 16)]

/-- Escaping of one character inside a JSON string, as done by
`json.dumps(..., ensure_ascii=False)`. -/
def escapeChar (c : Char) : String :=
  if c = '"' then "\\\""
  else if c = '\\' then "\\\\"
  else if c = '\n' then "\\n"
  else if c = '\t' then "\\t"
  else if c = '\r' then "\\r"
  else if c.toNat = 8 then "\\b"
  else if c.toNat = 12 then "\\f"
  else if c.toNat < 32 then "\\u" ++ hex4 c.toNat
  else String.singleton c

def quoteStr (s : String) : String :=
  "\"" ++ String.join (s.data.map escapeChar) ++ "\""

/-- Python `sep.join(parts)`. -/
def joinSep (sep : String) : List String → String
  | [] => ""
  | [x] => x
  | x :: xs => x ++ sep ++ joinSep sep xs

mutual

/-- Model of `json.dumps(v, ensure_ascii=False)` with the default separators
(item separator a comma and a space, key separator a colon and a space). -/
def dumps : Json → String
  | .null => "null"
  | .bool true => "true"
  | .bool false => "false"
  | .int n => toString n
  | .str s => quoteStr s
  | .arr xs => "[" ++ joinSep ", " (dumpsList xs) ++ "]"
  | .obj fs => "\x7b" ++ joinSep ", " (dumpsObj fs) ++ "\x7d"

def dumpsList : List Json → List String
  | [] => []
  | x :: xs => dumps x :: dumpsList xs

def dumpsObj : List (String × Json) → List String
  | [] => []
  | f :: fs => (quoteStr f.1 ++ ": " ++ dumps f.2) :: dumpsObj fs

end

/-! ## session_optimizer.py: size estimate and storage decision -/

/-- The `sample_data` dict built inside `estimate_session_size`: the first
question (`questions[:1]`) together with the fixed session fields. -/
def sampleData (questions : List Json) : Json :=
  .obj [("questions", .arr (questions.take 1)),
        ("quiz_mode", .str "immediate"),
        ("current_question", .int 0),
        ("user_answers", .obj []),
        ("correct_answers", .int 0)]

/-- Model of `estimate_session_size`: the serialized length of `sample_data` times
the question count (0 for an empty list). -/
def estimate_session_size (questions : List Json) : Nat :=
  let estimated_size := (dumps (sampleData questions)).length
  if questions.isEmpty then 0 else estimated_size * questions.length

/-- Model of `should_use_large_session`: spill when the estimate exceeds 3000 bytes
or there are more than 40 questions. -/
def should_use_large_session (questions : List Json) : Bool :=
  decide (3000 < estimate_session_size questions) || decide (40 < questions.length)

/-! ## session_optimizer.py: MD5 and session id generation

`generate_session_id` returns `hashlib.md5(timestamp.encode()).hexdigest()[:16]`
where `timestamp = datetime.now().isoformat()`.  MD5 is implemented below
over `Nat` with explicit reduction modulo 2^32 (RFC 1321). -/

/-- Truncation to 32 bits. -/
def w32 (n : Nat) : Nat := n % 4294967296

/-- Bitwise complement on 32 bits (valid for `x < 2^32`). -/
def wNot (x : Nat) : Nat := 4294967295 - x

/-- Left rotation on 32 bits. -/
def rotl32 (x s : Nat) : Nat := w32 (x <<< s) ||| (x >>> (32 - s))

/-- The MD5 round function for round `i`. -/
def md5F (i b c d : Nat) : Nat :=
  if i < 16 then (b &&& c) ||| (wNot b &&& d)
  else if i < 32 then (d &&& b) ||| (wNot d &&& c)
  else if i < 48 then Nat.xor (Nat.xor b c) d
  else Nat.xor c (b ||| wNot d)

/-- The message-word index used in round `i`. -/
def md5G (i : Nat) : Nat :=
  if i < 16 then i
  else if i < 32 then (5 * i + 1) % 16
  else if i < 48 then (3 * i + 5) % 16
  else (7 * i) % 16

/-- The MD5 sine-derived constants `K[0..63]`. -/
def md5K : List Nat :=
  [3614090360, 3905402710, 606105819, 3250441966, 4118548399, 1200080426,
   2821735955, 4249261313, 1770035416, 2336552879, 4294925233, 2304563134,
   1804603682, 4254626195, 2792965006, 1236535329, 4129170786, 3225465664,
   643717713, 3921069994, 3593408605, 38016083, 3634488961, 3889429448,
   568446438, 3275163606, 4107603335, 1163531501, 2850285829, 4243563512,
   1735328473, 2368359562, 4294588738, 2272392833, 1839030562, 4259657740,
   2763975236, 1272893353, 4139469664, 3200236656, 681279174, 3936430074,
   3572445317, 76029189, 3654602809, 3873151461, 530742520, 3299628645,
   4096336452, 1126891415, 2878612391, 4237533241, 1700485571, 2399980690,
   4293915773, 2240044497, 1873313359, 4264355552, 2734768916, 1309151649,
   4149444226, 3174756917, 718787259, 3951481745]

/-- The MD5 per-round left-rotation amounts `s[0..63]`. -/
def md5S : List Nat :=
  [7, 12, 17, 22, 7, 12, 17, 22, 7, 12, 17, 22, 7, 12, 17, 22,
   5, 9, 14, 20, 5, 9, 14, 20, 5, 9, 14, 20, 5, 9, 14, 20,
   4, 11, 16, 23, 4, 11, 16, 23, 4, 11, 16, 23, 4, 11, 16, 23,
   6, 10, 15, 21, 6, 10, 15, 21, 6, 10, 15, 21, 6, 10, 15, 21]

/-- Little-endian 32-bit word `j` of a 64-byte block. -/
def leWord (block : List Nat) (j : Nat) : Nat :=
  block.getD (4 * j) 0 + 256 * block.getD (4 * j + 1) 0 +
    65536 * block.getD (4 * j + 2) 0 + 16777216 * block.getD (4 * j + 3) 0

/-- One MD5 operation (round `i`) on the running state `(a, b, c, d)`. -/
def md5Step (block : List Nat) (st : Nat × Nat × Nat × Nat) (i : Nat) :
    Nat × Nat × Nat × Nat :=
  let a := st.1
  let b := st.2.1
  let c := st.2.2.1
  let d := st.2.2.2
  let f := w32 (md5F i b c d + a + md5K.getD i 0 + leWord block (md5G i))
  (d, w32 (b + rotl32 f (md5S.getD i 0)), b, c)

/-- Process one 64-byte block. -/
def md5Block (st : Nat × Nat × Nat × Nat) (block : List Nat) :
    Nat × Nat × Nat × Nat :=
  let r := (List.range 64).foldl (md5Step block) st
  (w32 (st.1 + r.1), w32 (st.2.1 + r.2.1), w32 (st.2.2.1 + r.2.2.1),
   w32 (st.2.2.2 + r.2.2.2))

/-- MD5 padding: a 0x80 byte, zeros to 56 mod 64, then the bit length as
eight little-endian bytes. -/
def md5Pad (msg : List Nat) : List Nat :=
  let bitLen := (msg.length * 8) % 18446744073709551616
  let zeros := (120 - (msg.length + 1) % 64) % 64
  msg ++ [128] ++ List.replicate zeros 0 ++
    ((List.range 8).map (fun i => bitLen >>> (8 * i) % 256))

/-- Split a byte list into 64-byte chunks. -/
def chunks64 (l : List Nat) : List (List Nat) :=
  if h : l = [] then []
  else
    have : l.length - 64 < l.length := by
      apply Nat.sub_lt _ (by norm_num)
      cases l with
      | nil => exact absurd rfl h
      | cons a l => exact Nat.succ_pos _
    l.take 64 :: chunks64 (l.drop 64)
termination_by l.length
decreasing_by simpa [List.length_drop] using this

/-- Two lowercase hex characters for one byte. -/
def byteHex (b : Nat) : String :=
  String.mk [hexDigit (b / 16 % 16), hexDigit (b % 16)]

/-- A 32-bit state word rendered as eight hex characters, little-endian
byte order (as in `hexdigest`). -/
def wordLEHex (w : Nat) : String :=
  byteHex (w % 256) ++ byteHex (w / 256 % 256) ++ byteHex (w / 65536 % 256) ++
    byteHex (w / 16777216 % 256)

/-- Model of `hashlib.md5(bytes).hexdigest()`. -/
def md5Hex (msg : List Nat) : String :=
  let st := (chunks64 (md5Pad msg)).foldl md5Block
    (1732584193, 4023233417, 2562383102, 271733878)
  wordLEHex st.1 ++ wordLEHex st.2.1 ++ wordLEHex st.2.2.1 ++ wordLEHex st.2.2.2

/-- The bytes of `s.encode()` for an ASCII string; `datetime.isoformat()`
timestamps are ASCII. -/
def strBytes (s : String) : List Nat := s.data.map Char.toNat

/-- Model of `generate_session_id`, with the clock reading (the Python code calls
`datetime.now().isoformat()` itself) made an explicit argument: the id is
the first 16 hex characters of the MD5 of the timestamp. -/
def generate_session_id (now_iso : String) : String :=
  (md5Hex (strBytes now_iso)).take 16

/-! ## session_optimizer.py: large-session store -/

/-- The value stored in the spill cache under a session id. -/
structure LargeData where
  questions : List Json
  created_at : String

/-- The in-memory spill cache `session_cache`. -/
def Cache : Type := List (String × LargeData)

/-- The compact blob `store_large_session` returns for the client-visible
session. -/
structure CompactData where
  session_id : String
  quiz_mode : String
  total_questions : Nat
  current_question : Nat
  user_answers : List (String × Json)
  correct_answers : Nat
  start_time : String
  is_large_session : Bool

/-- Model of `store_large_session`: mint a session id from the clock, put the
question list in the cache under it, and return the compact blob.  The
code reads the clock separately for the id, `start_time` and
`created_at`; the single `now` argument stands for those readings (the
claims below depend only on the reading used for the id). -/
def store_large_session (cache : Cache) (now : String) (questions : List Json)
    (quiz_mode : String) : CompactData × Cache :=
  let session_id := generate_session_id now
  let compact_data : CompactData :=
    { session_id := session_id
      quiz_mode := quiz_mode
      total_questions := questions.length
      current_question := 0
      user_answers := []
      correct_answers := 0
      start_time := now
      is_large_session := true }
  let large_data : LargeData := { questions := questions, created_at := now }
  (compact_data, dictInsert cache session_id large_data)

/-- The session blob as `get_session_questions` reads it: the
`is_large_session` flag, the optional `session_id` key, and (for inline
sessions) the optional `questions` key. -/
structure SessionData where
  is_large_session : Bool
  session_id : Option String
  questions : Option (List Json)

/-- The session keys `session.update(compact_data)` makes visible to
`get_session_questions`. -/
def CompactData.toSessionData (c : CompactData) : SessionData :=
  { is_large_session := c.is_large_session
    session_id := some c.session_id
    questions := none }

/-- Model of `get_session_questions`: for a large session, look the id up in the
cache and report `None` (modelled as `none`) when it is missing; for an
inline session return the `questions` key, defaulting to the empty list. -/
def get_session_questions (cache : Cache) (session_data : SessionData) :
    Option (List Json) :=
  if session_data.is_large_session then
    match session_data.session_id with
    | some session_id =>
      match dictGet? cache session_id with
      | some large_data => some large_data.questions
      | none => none
    | none => none
  else
    some (session_data.questions.getD [])

/-! ## app.py: question records

`correct_answer` is either a list of labels (standard question) or a dict
from sub-field to correct candidate (mapping question); `options` is
correspondingly a dict from label to text or from sub-field to candidate
list (spec section 3 invariant: the shapes match). -/

inductive Ans where
  | labels (ls : List String)
  | mapping (m : List (String × String))
deriving DecidableEq

inductive Opts where
  | std (m : List (String × String))
  | mapping (m : List (String × List String))
deriving DecidableEq

structure Question where
  question_number : Int
  options : Opts
  correct_answer : Ans
deriving DecidableEq

/-- Python `len` on a `correct_answer` value (list length, or number of
dict keys). -/
def ansLen : Ans → Nat
  | .labels ls => ls.length
  | .mapping m => m.length

/-- Model of `is_mapping_question`: the correct answer is a dict. -/
def is_mapping_question (question : Question) : Bool :=
  match question.correct_answer with
  | .mapping _ => true
  | .labels _ => false

/-- Model of `is_multiple_choice_question`: not a mapping question and more than
one correct answer. -/
def is_multiple_choice_question (question : Question) : Bool :=
  if is_mapping_question question then false
  else decide (1 < ansLen question.correct_answer)

/-! ## app.py: question selection (`get_question_subset`,
`_get_selected_questions`) -/

/-- Python truthiness of an optional int (`None` and `0` are falsy). -/
def truthyInt : Option Int → Bool
  | none => false
  | some n => decide (n ≠ 0)

/-- Model of `random.sample(questions, k)`: raises `ValueError` unless
`0 ≤ k ≤ len(questions)`; modelled by the first `k` questions, since the
claims below depend only on the length and the error behaviour of the
draw, not on which distinct questions randomness picks. -/
def randomSample (questions : List Question) (k : Int) :
    Except String (List Question) :=
  if k < 0 ∨ (questions.length : Int) < k then
    .error "Sample larger than population or is negative"
  else .ok (questions.take k.toNat)

/-- Model of `get_question_subset`: `all` and unrecognised/falsy criteria return
the full list; `range` filters by `question_number`; `random` draws
`min(num_random, len(questions))`. -/
def get_question_subset (questions : List Question) (selection_type : String)
    (start_range end_range num_random : Option Int) :
    Except String (List Question) :=
  if selection_type == "all" then .ok questions
  else if selection_type == "range" && truthyInt start_range && truthyInt end_range then
    .ok (questions.filter (fun q =>
      decide (start_range.getD 0 ≤ q.question_number) &&
      decide (q.question_number ≤ end_range.getD 0)))
  else if selection_type == "random" && truthyInt num_random then
    randomSample questions (min (num_random.getD 0) (questions.length : Int))
  else .ok questions

/-- Decimal digits accumulated left to right; `none` on a non-digit. -/
def parseDigitsAux : List Char → Nat → Option Nat
  | [], acc => some acc
  | c :: cs, acc =>
    if 48 ≤ c.toNat ∧ c.toNat ≤ 57 then
      parseDigitsAux cs (acc * 10 + (c.toNat - 48))
    else none

/-- Python `int(s)` for the decimal form strings relevant here: an
optional sign followed by one or more digits (`None` on anything else;
surrounding whitespace and underscore separators are not modelled). -/
def pyInt? (s : String) : Option Int :=
  match s.data with
  | [] => none
  | '-' :: rest =>
    if rest.isEmpty then none
    else (parseDigitsAux rest 0).map (fun n => -(n : Int))
  | '+' :: rest =>
    if rest.isEmpty then none
    else (parseDigitsAux rest 0).map (fun n => (n : Int))
  | cs => (parseDigitsAux cs 0).map (fun n => (n : Int))

/-- Python `int(s)` on a form string: `ValueError` when non-numeric. -/
def parseInt (s : String) : Except String Int :=
  match pyInt? s with
  | some n => .ok n
  | none => .error "invalid literal for int"

/-- Model of `form.get(key, default)` over the form modelled as an association
list, with the numeric default already an int. -/
def formGetInt (form : List (String × String)) (key : String) (dflt : Int) :
    Except String Int :=
  match dictGet? form key with
  | none => .ok dflt
  | some s => parseInt s

/-- Model of `_get_selected_questions`: parse the form parameters (propagating
`ValueError` from `int(...)`) and delegate to `get_question_subset`. -/
def get_selected_questions (questions : List Question) (selection_type : String)
    (form : List (String × String)) : Except String (List Question) :=
  if selection_type == "range" then do
    let start_range ← formGetInt form "start_range" 1
    let end_range ← formGetInt form "end_range" (questions.length : Int)
    get_question_subset questions "range" (some start_range) (some end_range) none
  else if selection_type == "random" then do
    let num_random ← formGetInt form "num_random" 10
    get_question_subset questions "random" none none (some num_random)
  else .ok questions

/-- Where a request leaves the user: back at the selection page (`index`)
or inside the quiz. -/
inductive Route where
  | index : Route
  | quiz (mode : String) : Route
deriving DecidableEq

/-- Model of `start_quiz`, parametrised by the shuffler (`shuf` stands for
`shuffle_question_options` with its randomness fixed; `none` is an
uncaught exception).  A `ValueError` from selection is caught and turns
into a redirect to `index`; otherwise the session is filled with the
shuffled selection and the user is redirected into the quiz.  Returns the
route and the question list placed in the session. -/
def start_quiz (questions : List Question) (shuf : Question → Option Question)
    (quiz_mode selection_type : String) (form : List (String × String)) :
    Except String (Route × List Question) :=
  if questions.isEmpty then .ok (.index, [])
  else
    match get_selected_questions questions selection_type form with
    | .error _ => .ok (.index, [])
    | .ok selected =>
      match selected.mapM shuf with
      | none => .error "unhandled exception while shuffling"
      | some shuffled => .ok (.quiz quiz_mode, shuffled)

/-- What the quiz pages (`quiz_immediate` / `quiz_batch`) do first: an
empty or unavailable question list redirects back to `index`. -/
def quiz_page_route (questions : Option (List Question)) : Route :=
  match questions with
  | none => .index
  | some qs => if qs.isEmpty then .index else .quiz "show"

/-! ## app.py: option shuffling

`random.shuffle` is made explicit: `_shuffle_standard_question_options`
takes the shuffled copy of the option-value list, and
`_shuffle_mapping_question_options` takes, per sub-field name, the
permutation applied to that sub-field's candidate list.  `none` models an
uncaught `KeyError`. -/

/-- The inner scan
`for orig_key, orig_value in original_options.items(): if orig_value == value: ... break`:
first original key holding a given value. -/
def findOrigKey {β : Type} [BEq β] (original_options : List (String × β)) (value : β) :
    Option String :=
  (original_options.find? (fun p => p.2 == value)).map (fun p => p.1)

/-- The loop building `value_to_new_key`: for each position, the new key
(the original key list in order) is recorded under the first original key
holding the value now at that position; dict assignment overwrites. -/
def buildValueToNewKey {β : Type} [BEq β] (original_options : List (String × β))
    (pairs : List (String × β)) : List (String × String) :=
  pairs.foldl (fun acc kv =>
    match findOrigKey original_options kv.2 with
    | some orig_key => dictInsert acc orig_key kv.1
    | none => acc) []

/-- Model of `_shuffle_standard_question_options`, with `shuffledValues` the result
of `random.shuffle` on the copy of the option values.  Returns `none` on
`KeyError` (a correct label absent from `value_to_new_key`), or when the
question is not shaped as a standard question. -/
def shuffleStandard (question : Question) (shuffledValues : List String) :
    Option Question :=
  match question.options, question.correct_answer with
  | .std original_options, .labels original_correct =>
    let option_keys := original_options.map (fun p => p.1)
    let shuffled_options := option_keys.zip shuffledValues
    let value_to_new_key := buildValueToNewKey original_options shuffled_options
    match original_correct.mapM (fun correct_key => dictGet? value_to_new_key correct_key) with
    | some new_correct_answers =>
      some { question with options := .std shuffled_options,
                           correct_answer := .labels new_correct_answers }
    | none => none
  | _, _ => none

/-- Model of `_shuffle_mapping_question_options`, with `perm k` the permutation
`random.shuffle` applies to sub-field `k`'s copied candidate list.  The
correct value of each sub-field is carried over verbatim; a sub-field
missing from `correct_answer` is a `KeyError` (`none`). -/
def shuffleMapping (question : Question) (perm : String → List String → List String) :
    Option Question :=
  match question.options, question.correct_answer with
  | .mapping original_options, .mapping corr =>
    match original_options.mapM (fun kv =>
        (dictGet? corr kv.1).map (fun c => (kv.1, perm kv.1 kv.2, c))) with
    | some rows =>
      some { question with
              options := .mapping (rows.map (fun r => (r.1, r.2.1))),
              correct_answer := .mapping (rows.map (fun r => (r.1, r.2.2))) }
    | none => none
  | _, _ => none

/-- Model of `shuffle_question_options`: dispatch on `is_mapping_question`. -/
def shuffle_question_options (question : Question)
    (stdValues : List String) (perm : String → List String → List String) :
    Option Question :=
  if is_mapping_question question then shuffleMapping question perm
  else shuffleStandard question stdValues

/-! ## app.py: answer processing (`AnswerProcessor`) -/

/-- Model of `request.form.getlist(key)`: every value submitted under the key, in
order. -/
def getlist (form : List (String × String)) (key : String) : List String :=
  (form.filter (fun p => p.1 == key)).map (fun p => p.2)

/-- Code-point-lexicographic comparison of character lists, the order
CPython uses to compare `str` values. -/
def charsLe : List Char → List Char → Bool
  | [], _ => true
  | _ :: _, [] => false
  | x :: xs, y :: ys =>
    if x.toNat < y.toNat then true
    else if y.toNat < x.toNat then false
    else charsLe xs ys

/-- The string order used by Python's `sorted` / `list.sort()`. -/
def pyStrLe (a b : String) : Prop := charsLe a.data b.data = true

instance : DecidableRel pyStrLe := fun a b =>
  inferInstanceAs (Decidable (charsLe a.data b.data = true))

instance {e a : Type} [DecidableEq e] [DecidableEq a] : DecidableEq (Except e a) :=
  fun x y =>
    match x, y with
    | .ok u, .ok v =>
      if h : u = v then isTrue (by rw [h]) else isFalse (by simp [h])
    | .error u, .error v =>
      if h : u = v then isTrue (by rw [h]) else isFalse (by simp [h])
    | .ok _, .error _ => isFalse (by simp)
    | .error _, .ok _ => isFalse (by simp)

/-- Python `list.sort()` / `sorted` on strings. -/
def pySortStrs (l : List String) : List String :=
  l.insertionSort pyStrLe

/-- Model of `get_answer_text_from_keys`: keys present in the options rendered as
`"K) text"`; unknown keys are skipped.  Only standard questions reach
this helper. -/
def get_answer_text_from_keys (question : Question) (answer_keys : List String) :
    List String :=
  match question.options with
  | .std opts => answer_keys.filterMap (fun key =>
      (dictGet? opts key).map (fun text => key ++ ") " ++ text))
  | .mapping _ => []

/-- The fixed display separator: `' | '.join(parts)`. -/
def joinPipe (parts : List String) : String := joinSep " | " parts

/-- Python `str.title()` restricted to the ASCII strings the app uses. -/
def pyTitle (s : String) : String :=
  String.mk ((s.data.foldl (fun (acc : List Char × Bool) c =>
    if c.isAlpha then
      ((if acc.2 then c.toLower else c.toUpper) :: acc.1, true)
    else (c :: acc.1, false)) ([], false)).1.reverse)

/-- Sub-field key formatted for display:
`sub_question_key.replace('_', ' ').title()`. -/
def displayKey (k : String) : String :=
  pyTitle (String.mk (k.data.map (fun c => if c = '_' then ' ' else c)))

/-- A submitted answer: a list of labels, or a dict of per-sub-field
values where a missing form field is recorded as `None`. -/
inductive UserAns where
  | labels (ls : List String)
  | mapping (m : List (String × Option String))
deriving DecidableEq

/-- Model of `get_mapping_answer_display`: `sub-field: value` pairs joined with
the separator, iterating sub-fields in declared order.  A sub-field
absent from `user_answers` renders as `Not answered`; one recorded as
`None` renders as Python prints `None`. -/
def get_mapping_answer_display (question : Question)
    (user_answers : List (String × Option String)) : String × String :=
  match question.options, question.correct_answer with
  | .mapping opts, .mapping corr =>
    let user_parts := opts.map (fun kv =>
      displayKey kv.1 ++ ": " ++
        (match dictGet? user_answers kv.1 with
         | none => "Not answered"
         | some none => "None"
         | some (some v) => v))
    let correct_parts := opts.map (fun kv =>
      displayKey kv.1 ++ ": " ++ ((dictGet? corr kv.1).getD ""))
    (joinPipe user_parts, joinPipe correct_parts)
  | _, _ => ("", "")

/-- The form field read by the single/multiple-choice processors:
`question_<n>` in batch mode, `<prefix>answer` otherwise. -/
def choiceFieldName (pfx : String) (question_number : Int) : String :=
  if pfx == "batch" then "question_" ++ toString question_number
  else pfx ++ "answer"

/-- The form field read for one sub-field of a mapping question. -/
def mappingFieldName (pfx : String) (question_number : Int) (sub_key : String) :
    String :=
  if pfx == "batch" then "mapping_" ++ toString question_number ++ "_" ++ sub_key
  else pfx ++ "mapping_" ++ sub_key

/-- Model of `AnswerProcessor._process_mapping_answer`: read one form field per
sub-field (missing fields become `None`), mark the question incorrect as
soon as one sub-field differs from its entry in `correct_answer`.
`none` is the `KeyError` raised when a sub-field is missing from
`correct_answer`. -/
def process_mapping_answer (question : Question) (form : List (String × String))
    (pfx : String) : Option (UserAns × Bool × String × String) :=
  match question.options, question.correct_answer with
  | .mapping opts, .mapping corr =>
    match opts.mapM (fun kv =>
        (dictGet? corr kv.1).map (fun c =>
          (kv.1, dictGet? form (mappingFieldName pfx question.question_number kv.1), c))) with
    | some rows =>
      let user_answers := rows.map (fun r => (r.1, r.2.1))
      let is_correct := rows.all (fun r => r.2.1 == some r.2.2)
      let d := get_mapping_answer_display question user_answers
      some (.mapping user_answers, is_correct, d.1, d.2)
    | none => none
  | _, _ => none

/-- Model of `AnswerProcessor._process_multiple_choice_answer`: the submitted
labels are sorted in place and compared with the sorted correct labels. -/
def process_multiple_choice_answer (question : Question)
    (form : List (String × String)) (pfx : String) :
    Option (UserAns × Bool × String × String) :=
  match question.correct_answer with
  | .labels correct_answers =>
    let field_name := choiceFieldName pfx question.question_number
    let user_answers := pySortStrs (getlist form field_name)
    let correct_answers_sorted := pySortStrs correct_answers
    let is_correct := user_answers == correct_answers_sorted
    let user_answer_texts :=
      if user_answers.isEmpty then ["None"]
      else get_answer_text_from_keys question user_answers
    let correct_answer_texts := get_answer_text_from_keys question correct_answers_sorted
    some (.labels user_answers, is_correct, joinPipe user_answer_texts,
          joinPipe correct_answer_texts)
  | .mapping _ => none

/-- Model of `AnswerProcessor._process_single_answer`: one optional submitted
label compared with `correct_answer[0]` (`none` is the `IndexError` on an
empty correct list, or the one on an empty rendering of the user text). -/
def process_single_answer (question : Question) (form : List (String × String))
    (pfx : String) : Option (UserAns × Bool × String × String) :=
  match question.correct_answer with
  | .labels correct_answers =>
    match correct_answers with
    | [] => none
    | c0 :: _ =>
      let field_name := choiceFieldName pfx question.question_number
      let user_answer := dictGet? form field_name
      let truthy := match user_answer with
        | some s => decide (s ≠ "")
        | none => false
      let user_answers := if truthy then [user_answer.getD ""] else []
      let is_correct := user_answer == some c0
      let user_answer_texts :=
        if truthy then get_answer_text_from_keys question [user_answer.getD ""]
        else ["None"]
      let correct_answer_texts := get_answer_text_from_keys question correct_answers
      match user_answer_texts.head?, correct_answer_texts.head? with
      | some ud, some cd => some (.labels user_answers, is_correct, ud, cd)
      | _, _ => none
  | .mapping _ => none

/-- Which of the three evaluation sub-protocols handles a question. -/
inductive Handler where
  | mappingH : Handler
  | multipleChoiceH : Handler
  | singleH : Handler
deriving DecidableEq

/-- The dispatch performed by `AnswerProcessor.process_user_answer`. -/
def handlerOf (question : Question) : Handler :=
  if is_mapping_question question then .mappingH
  else if is_multiple_choice_question question then .multipleChoiceH
  else .singleH

/-- Model of `AnswerProcessor.process_user_answer`. -/
def process_user_answer (question : Question) (form : List (String × String))
    (pfx : String) : Option (UserAns × Bool × String × String) :=
  if is_mapping_question question then process_mapping_answer question form pfx
  else if is_multiple_choice_question question then
    process_multiple_choice_answer question form pfx
  else process_single_answer question form pfx

/-! ## app.py: scoring (`results`, `_get_certification_level`)

The score is computed in Python on floats; it is modelled here on exact
rationals, with Python's `round(x, 1)` as round-half-to-even in the last
retained digit. -/

/-- Round-half-to-even to an integer. -/
def roundHalfEven (x : ℚ) : ℤ :=
  if x - Int.floor x < 1/2 then Int.floor x
  else if 1/2 < x - Int.floor x then Int.floor x + 1
  else if Int.floor x % 2 = 0 then Int.floor x else Int.floor x + 1

/-- Python `round(x, 1)`. -/
def pyRound1 (x : ℚ) : ℚ := (roundHalfEven (x * 10) : ℚ) / 10

/-- Model of `score_percentage = round(correct_answers / total_questions * 100, 1)`. -/
def score_percentage (correct_answers total_questions : ℕ) : ℚ :=
  pyRound1 ((correct_answers : ℚ) / (total_questions : ℚ) * 100)

/-- Model of `_get_certification_level`. -/
def get_certification_level (score : ℚ) : String × String :=
  if 80 ≤ score then ("Excellent - Ready for the exam", "success")
  else if 70 ≤ score then ("Good - Almost ready", "warning")
  else ("Needs more study", "danger")

/-! ## Heap model of `shuffle_question_options`

The claim that shuffling does not mutate its input is about Python object
identity, so the shuffle is re-embedded over an explicit heap: objects
(lists and dicts) live at addresses, `question.copy()` and
`option_list.copy()` allocate fresh addresses, and in-place dict
assignment is a heap write.  Addresses are allocated in sequence from
`Heap.next`, so "the input is not mutated" is the statement that every
address older than `Heap.next` reads the same after the call. -/

inductive Val where
  | vstr (s : String) : Val
  | vint (n : Int) : Val
  | vnone : Val
  | ref (a : Nat) : Val
deriving DecidableEq

inductive Obj where
  | list (xs : List Val) : Obj
  | dict (fs : List (String × Val)) : Obj
deriving DecidableEq

structure Heap where
  next : Nat
  objs : List (Nat × Obj)
deriving DecidableEq

def Heap.read (h : Heap) (a : Nat) : Option Obj :=
  (h.objs.find? (fun p => p.1 == a)).map (fun p => p.2)

def Heap.alloc (h : Heap) (o : Obj) : Nat × Heap :=
  (h.next, ⟨h.next + 1, (h.next, o) :: h.objs⟩)

def Heap.write (h : Heap) (a : Nat) (o : Obj) : Heap :=
  ⟨h.next, h.objs.map (fun p => if p.1 == a then (a, o) else p)⟩

/-- The common tail of both heap-level shuffle paths: allocate the new
options object and the new correct-answer object, and assign both fields
on the copied question dict at `qa2`. -/
def finishShuffle (h1 : Heap) (qa2 : Nat) (qfs : List (String × Val))
    (optsObj corrObj : Obj) : Heap × Nat :=
  let r2 := h1.alloc optsObj
  let r3 := r2.2.alloc corrObj
  let qfs2 := dictInsert (dictInsert qfs "options" (.ref r2.1))
    "correct_answer" (.ref r3.1)
  (r3.2.write qa2 (.dict qfs2), qa2)

/-- Model of `_shuffle_standard_question_options` over the heap: copy the question
dict, read the original options dict and correct list, build the shuffled
options and remapped correct answers as fresh objects, and assign them on
the copy.  `stdPerm` is the permutation `random.shuffle` applies to the
fresh value list. -/
def shuffleStandardH (h : Heap) (qa : Nat) (stdPerm : List Val → List Val) :
    Option (Heap × Nat) :=
  match h.read qa with
  | some (.dict qfs) =>
    let r1 := h.alloc (.dict qfs)
    match dictGet? qfs "options" with
    | some (.ref oa) =>
      match r1.2.read oa with
      | some (.dict original_options) =>
        match dictGet? qfs "correct_answer" with
        | some (.ref ca) =>
          match r1.2.read ca with
          | some (.list original_correct) =>
            let option_keys := original_options.map (fun p => p.1)
            let option_values := stdPerm (original_options.map (fun p => p.2))
            let shuffled_options := option_keys.zip option_values
            let value_to_new_key := buildValueToNewKey original_options shuffled_options
            match original_correct.mapM (fun c =>
                match c with
                | .vstr k => (dictGet? value_to_new_key k).map Val.vstr
                | _ => none) with
            | some new_correct =>
              some (finishShuffle r1.2 r1.1 qfs (.dict shuffled_options)
                (.list new_correct))
            | none => none
          | _ => none
        | _ => none
      | _ => none
    | _ => none
  | _ => none

/-- The per-sub-field loop of `_shuffle_mapping_question_options`: copy
and shuffle each candidate list into a fresh object, look up the
sub-field's correct value, and collect the bindings for the two result
dicts. -/
def mappingLoop (mapPerm : String → List Val → List Val)
    (corr : List (String × Val)) :
    List (String × Val) → Heap × List (String × Val) × List (String × Val) →
    Option (Heap × List (String × Val) × List (String × Val))
  | [], st => some st
  | (k, v) :: rest, st =>
    match v with
    | .ref la =>
      match st.1.read la with
      | some (.list option_list) =>
        match dictGet? corr k with
        | some correct_value =>
          let r := st.1.alloc (.list (mapPerm k option_list))
          mappingLoop mapPerm corr rest
            (r.2, st.2.1 ++ [(k, .ref r.1)], st.2.2 ++ [(k, correct_value)])
        | none => none
      | _ => none
    | _ => none

/-- Model of `_shuffle_mapping_question_options` over the heap.  The code fills
two initially-empty dicts inside the loop; here the filled dicts are
allocated after the loop with the same final contents — every written
address is freshly allocated either way. -/
def shuffleMappingH (h : Heap) (qa : Nat)
    (mapPerm : String → List Val → List Val) : Option (Heap × Nat) :=
  match h.read qa with
  | some (.dict qfs) =>
    let r1 := h.alloc (.dict qfs)
    match dictGet? qfs "options", dictGet? qfs "correct_answer" with
    | some (.ref oa), some (.ref ca) =>
      match r1.2.read oa, r1.2.read ca with
      | some (.dict opts), some (.dict corr) =>
        match mappingLoop mapPerm corr opts (r1.2, [], []) with
        | some st =>
          some (finishShuffle st.1 r1.1 qfs (.dict st.2.1) (.dict st.2.2))
        | none => none
      | _, _ => none
    | _, _ => none
  | _ => none

/-- Model of `shuffle_question_options` over the heap: dispatch on whether the
`correct_answer` object is a dict (`is_mapping_question`). -/
def shuffle_question_optionsH (h : Heap) (qa : Nat)
    (stdPerm : List Val → List Val) (mapPerm : String → List Val → List Val) :
    Option (Heap × Nat) :=
  match h.read qa with
  | some (.dict qfs) =>
    match dictGet? qfs "correct_answer" with
    | some (.ref ca) =>
      match h.read ca with
      | some (.dict _) => shuffleMappingH h qa mapPerm
      | some (.list _) => shuffleStandardH h qa stdPerm
      | none => none
    | _ => none
  | _ => none

/-! ## Concrete instances used by counterexamples and witnesses -/

/-- A synthetic question whose JSON serialization is exactly 100
characters (62 characters of text plus 38 of structure). -/
def c1Question : Json :=
  .obj [("question_number", .int 1),
        ("question", .str "Which AWS services provide fully managed model hosting today??")]

/-- A five-question single-choice bank numbered 1 to 5. -/
def smallBank : List Question :=
  (List.range 5).map (fun i =>
    { question_number := (i : Int) + 1
      options := .std [("A", "first option"), ("B", "second option")]
      correct_answer := .labels ["A"] })

/-- A standard question with a duplicated option text whose correct label
is not the first holder of that text. -/
def dupTextQuestion : Question :=
  { question_number := 1
    options := .std [("A", "x"), ("B", "x")]
    correct_answer := .labels ["B"] }

/-- A three-option multi-select question. -/
def multiQuestion : Question :=
  { question_number := 1
    options := .std [("A", "alpha"), ("B", "beta"), ("C", "gamma")]
    correct_answer := .labels ["A", "B"] }

/-- A mapping question with two sub-fields. -/
def mapQuestion : Question :=
  { question_number := 3
    options := .mapping [("first_slot", ["u", "v"]), ("second_slot", ["w", "z"])]
    correct_answer := .mapping [("first_slot", "v"), ("second_slot", "w")] }

/-- A heap holding one standard question: the question dict at address 0
references its options dict (address 1) and its correct list (address 2). -/
def c6Heap : Heap :=
  { next := 3
    objs := [(0, .dict [("question_number", .vint 1), ("options", .ref 1),
                        ("correct_answer", .ref 2)]),
             (1, .dict [("A", .vstr "alpha"), ("B", .vstr "beta")]),
             (2, .list [.vstr "A"])] }

/-- The run of the heap-level shuffle on `c6Heap`. -/
def c6Run : Option (Heap × Nat) :=
  shuffle_question_optionsH c6Heap 0 List.reverse (fun _ l => l)

/-! # Helper lemmas -/

theorem dictGet?_cons_self {β : Type} (p : String × β) (d : List (String × β))
    (h : p.1 = k) : dictGet? (p :: d) k = some p.2 := by
  unfold dictGet?
  have : (p.1 == k) = true := by simp [h]
  simp [List.find?, this]

theorem dictGet?_cons_ne {β : Type} (p : String × β) (d : List (String × β))
    (h : p.1 ≠ k) : dictGet? (p :: d) k = dictGet? d k := by
  unfold dictGet?
  have : (p.1 == k) = false := by simp [h]
  simp [List.find?, this]

theorem dictGet?_append_last_self {β : Type} (d : List (String × β)) (k : String) (v : β)
    (h : ∀ p ∈ d, p.1 ≠ k) : dictGet? (d ++ [(k, v)]) k = some v := by
  induction d with
  | nil => exact dictGet?_cons_self _ _ rfl
  | cons p d ih =>
    rw [List.cons_append, dictGet?_cons_ne _ _ (h p (List.mem_cons_self p d))]
    exact ih (fun q hq => h q (List.mem_cons_of_mem p hq))

theorem dictGet?_map_overwrite {β : Type} (d : List (String × β)) (k : String) (v : β)
    (h : ∃ p ∈ d, p.1 = k) :
    dictGet? (d.map (fun p => if p.1 == k then (k, v) else p)) k = some v := by
  induction d with
  | nil => simp at h
  | cons p d ih =>
    by_cases hpk : p.1 = k
    · have hb : (p.1 == k) = true := by simp [hpk]
      rw [List.map_cons, if_pos hb]
      exact dictGet?_cons_self _ _ rfl
    · have hb : ¬((p.1 == k) = true) := by simp [hpk]
      rw [List.map_cons, if_neg hb, dictGet?_cons_ne _ _ hpk]
      rcases h with ⟨q, hq, hqk⟩
      rcases List.mem_cons.mp hq with rfl | hq'
      · exact absurd hqk hpk
      · exact ih ⟨q, hq', hqk⟩

theorem dictGet?_dictInsert_self {β : Type} (d : List (String × β)) (k : String) (v : β) :
    dictGet? (dictInsert d k v) k = some v := by
  unfold dictInsert
  by_cases hd : d.any (fun p => p.1 == k) = true
  · rcases List.any_eq_true.mp hd with ⟨p, hp, hpk⟩
    rw [if_pos hd]
    exact dictGet?_map_overwrite d k v ⟨p, hp, by simpa using hpk⟩
  · rw [if_neg hd]
    refine dictGet?_append_last_self d k v (fun p hp he => ?_)
    exact hd (List.any_eq_true.mpr ⟨p, hp, by simpa using he⟩)

theorem dictGet?_eq_none {β : Type} (d : List (String × β)) (k : String)
    (h : k ∉ d.map (fun p => p.1)) : dictGet? d k = none := by
  induction d with
  | nil => rfl
  | cons p d ih =>
    simp only [List.map_cons, List.mem_cons] at h
    push_neg at h
    rw [dictGet?_cons_ne _ _ (fun he => h.1 he.symm)]
    exact ih h.2

/-- In a dict with unique keys, a binding is the result of its key's lookup. -/
theorem dictGet?_of_mem {β : Type} (d : List (String × β)) (k : String) (v : β)
    (hnd : (d.map (fun p => p.1)).Nodup) (hmem : (k, v) ∈ d) :
    dictGet? d k = some v := by
  induction d with
  | nil => simp at hmem
  | cons p d ih =>
    simp only [List.map_cons, List.nodup_cons] at hnd
    rcases List.mem_cons.mp hmem with h | h
    · rw [← h]
      exact dictGet?_cons_self _ _ rfl
    · have hkd : k ∈ d.map (fun q => q.1) := List.mem_map.mpr ⟨(k, v), h, rfl⟩
      rw [dictGet?_cons_ne _ _ (fun he => hnd.1 (he ▸ hkd))]
      exact ih hnd.2 h

theorem heap_read_alloc_of_lt (h : Heap) (o : Obj) (a : Nat) (ha : a < h.next) :
    (h.alloc o).2.read a = h.read a := by
  unfold Heap.alloc Heap.read
  have hne : (h.next == a) = false := by simp [Nat.ne_of_gt ha]
  simp [List.find?, hne]

theorem find?_map_write (objs : List (Nat × Obj)) (b a : Nat) (o : Obj) (hab : a ≠ b) :
    (objs.map (fun p => if p.1 == b then (b, o) else p)).find? (fun p => p.1 == a)
      = objs.find? (fun p => p.1 == a) := by
  induction objs with
  | nil => rfl
  | cons p objs ih =>
    by_cases hpb : p.1 = b
    · have h1 : ((p.1 == b) = true) := by simp [hpb]
      rw [List.map_cons, if_pos h1]
      have h2 : ((b : Nat) == a) = false := by simp [Ne.symm hab]
      have h3 : ((p.1 : Nat) == a) = false := by simp [hpb, Ne.symm hab]
      simp only [List.find?, h2, h3]
      exact ih
    · have h1 : ¬((p.1 == b) = true) := by simp [hpb]
      rw [List.map_cons, if_neg h1]
      by_cases hpa : p.1 = a
      · have h2 : ((p.1 : Nat) == a) = true := by simp [hpa]
        simp [List.find?, h2]
      · have h2 : ((p.1 : Nat) == a) = false := by simp [hpa]
        simp only [List.find?, h2]
        exact ih

theorem heap_read_write_of_ne (h : Heap) (b : Nat) (o : Obj) (a : Nat) (hab : a ≠ b) :
    (h.write b o).read a = h.read a := by
  unfold Heap.write Heap.read
  simp only
  rw [find?_map_write h.objs b a o hab]

theorem mappingLoop_frame (mapPerm : String → List Val → List Val)
    (corr : List (String × Val)) :
    ∀ (rows : List (String × Val)) (st st' : Heap × List (String × Val) × List (String × Val)),
      mappingLoop mapPerm corr rows st = some st' →
      st.1.next ≤ st'.1.next ∧ ∀ a, a < st.1.next → st'.1.read a = st.1.read a := by
  intro rows
  induction rows with
  | nil =>
    intro st st' hrun
    cases hrun
    exact ⟨le_refl _, fun a _ => rfl⟩
  | cons kv rest ih =>
    intro st st' hrun
    obtain ⟨k, v⟩ := kv
    unfold mappingLoop at hrun
    repeat' split at hrun
    all_goals try exact Option.noConfusion hrun
    simp only [] at hrun
    have hrec := ih _ st' hrun
    refine ⟨le_trans (Nat.le_succ _) hrec.1, fun a ha => ?_⟩
    rw [hrec.2 a (Nat.lt_succ_of_lt ha)]
    exact heap_read_alloc_of_lt st.1 _ a ha

theorem finishShuffle_read (h1 : Heap) (qa2 : Nat) (qfs : List (String × Val))
    (optsObj corrObj : Obj) (a : Nat) (ha : a < h1.next) (hne : a ≠ qa2) :
    (finishShuffle h1 qa2 qfs optsObj corrObj).1.read a = h1.read a := by
  unfold finishShuffle
  simp only []
  rw [heap_read_write_of_ne _ _ _ a hne]
  rw [heap_read_alloc_of_lt]
  · exact heap_read_alloc_of_lt h1 _ a ha
  · exact Nat.lt_succ_of_lt ha

theorem shuffleStandardH_frame (h : Heap) (qa : Nat) (stdPerm : List Val → List Val)
    (h2 : Heap) (qa2 : Nat)
    (hrun : shuffleStandardH h qa stdPerm = some (h2, qa2)) :
    qa2 = h.next ∧ h.next < h2.next ∧ ∀ a, a < h.next → h2.read a = h.read a := by
  simp only [shuffleStandardH] at hrun
  repeat' split at hrun
  all_goals try exact Option.noConfusion hrun
  injection hrun with hpair
  have hfst := congrArg Prod.fst hpair
  have hsnd := congrArg Prod.snd hpair
  subst hfst
  subst hsnd
  refine ⟨rfl, ?_, fun a ha => ?_⟩
  · show h.next < h.next + 3
    omega
  · rw [finishShuffle_read]
    · exact heap_read_alloc_of_lt h _ a ha
    · exact Nat.lt_succ_of_lt ha
    · exact Nat.ne_of_lt ha

theorem shuffleMappingH_frame (h : Heap) (qa : Nat)
    (mapPerm : String → List Val → List Val) (h2 : Heap) (qa2 : Nat)
    (hrun : shuffleMappingH h qa mapPerm = some (h2, qa2)) :
    qa2 = h.next ∧ h.next < h2.next ∧ ∀ a, a < h.next → h2.read a = h.read a := by
  simp only [shuffleMappingH] at hrun
  repeat' split at hrun
  all_goals try exact Option.noConfusion hrun
  next st hloop =>
    have hframe := mappingLoop_frame _ _ _ _ _ hloop
    injection hrun with hpair
    have hfst := congrArg Prod.fst hpair
    have hsnd := congrArg Prod.snd hpair
    subst hfst
    subst hsnd
    refine ⟨rfl, ?_, fun a ha => ?_⟩
    · show h.next < st.1.next + 2
      have h1 : h.next + 1 ≤ st.1.next := hframe.1
      omega
    · rw [finishShuffle_read]
      · rw [hframe.2 a (by show a < h.next + 1; omega)]
        exact heap_read_alloc_of_lt h _ a ha
      · have h1 : h.next + 1 ≤ st.1.next := hframe.1
        omega
      · exact Nat.ne_of_lt ha

/-- Frame property of the heap-level shuffle: the result is a fresh
address, and no previously allocated address changes. -/
theorem shuffleH_frame (h : Heap) (qa : Nat) (stdPerm : List Val → List Val)
    (mapPerm : String → List Val → List Val) (h2 : Heap) (qa2 : Nat)
    (hrun : shuffle_question_optionsH h qa stdPerm mapPerm = some (h2, qa2)) :
    qa2 = h.next ∧ h.next < h2.next ∧ ∀ a, a < h.next → h2.read a = h.read a := by
  simp only [shuffle_question_optionsH] at hrun
  repeat' split at hrun
  all_goals try exact Option.noConfusion hrun
  · exact shuffleMappingH_frame h qa mapPerm h2 qa2 hrun
  · exact shuffleStandardH_frame h qa stdPerm h2 qa2 hrun

theorem charToNat_inj {a b : Char} (h : a.toNat = b.toNat) : a = b := by
  rw [← Char.ofNat_toNat a, ← Char.ofNat_toNat b, h]

theorem charsLe_total : ∀ xs ys : List Char,
    charsLe xs ys = true ∨ charsLe ys xs = true
  | [], _ => Or.inl rfl
  | _ :: _, [] => Or.inr rfl
  | x :: xs, y :: ys => by
    by_cases h1 : x.toNat < y.toNat
    · left
      unfold charsLe
      rw [if_pos h1]
    · by_cases h2 : y.toNat < x.toNat
      · right
        unfold charsLe
        rw [if_pos h2]
      · have ih := charsLe_total xs ys
        unfold charsLe
        rw [if_neg h1, if_neg h2, if_neg h2, if_neg h1]
        exact ih

theorem charsLe_trans : ∀ xs ys zs : List Char,
    charsLe xs ys = true → charsLe ys zs = true → charsLe xs zs = true
  | [], _, _ => fun _ _ => rfl
  | _ :: _, [], _ => fun h _ => by simp [charsLe] at h
  | _ :: _, _ :: _, [] => fun _ h => by simp [charsLe] at h
  | x :: xs, y :: ys, z :: zs => fun h1 h2 => by
    unfold charsLe at h1 h2 ⊢
    by_cases a1 : x.toNat < y.toNat
    · by_cases a2 : y.toNat < z.toNat
      · rw [if_pos (Nat.lt_trans a1 a2)]
      · by_cases a3 : z.toNat < y.toNat
        · rw [if_neg a2, if_pos a3] at h2
          exact absurd h2 (by simp)
        · have hyz : y.toNat = z.toNat :=
            Nat.le_antisymm (Nat.not_lt.mp a3) (Nat.not_lt.mp a2)
          rw [if_pos (hyz ▸ a1)]
    · by_cases b1 : y.toNat < x.toNat
      · rw [if_neg a1, if_pos b1] at h1
        exact absurd h1 (by simp)
      · have hxy : x.toNat = y.toNat :=
          Nat.le_antisymm (Nat.not_lt.mp b1) (Nat.not_lt.mp a1)
        rw [if_neg a1, if_neg b1] at h1
        by_cases a2 : y.toNat < z.toNat
        · rw [hxy, if_pos a2]
        · by_cases a3 : z.toNat < y.toNat
          · rw [if_neg a2, if_pos a3] at h2
            exact absurd h2 (by simp)
          · have hyz : y.toNat = z.toNat :=
              Nat.le_antisymm (Nat.not_lt.mp a3) (Nat.not_lt.mp a2)
            rw [if_neg a2, if_neg a3] at h2
            rw [hxy, hyz, if_neg (Nat.lt_irrefl _), if_neg (Nat.lt_irrefl _)]
            exact charsLe_trans xs ys zs h1 h2

theorem charsLe_antisymm : ∀ xs ys : List Char,
    charsLe xs ys = true → charsLe ys xs = true → xs = ys
  | [], [] => fun _ _ => rfl
  | [], _ :: _ => fun _ h => by simp [charsLe] at h
  | _ :: _, [] => fun h _ => by simp [charsLe] at h
  | x :: xs, y :: ys => fun h1 h2 => by
    unfold charsLe at h1 h2
    by_cases a1 : x.toNat < y.toNat
    · rw [if_neg (Nat.lt_asymm a1), if_pos a1] at h2
      exact absurd h2 (by simp)
    · by_cases b1 : y.toNat < x.toNat
      · rw [if_neg a1, if_pos b1] at h1
        exact absurd h1 (by simp)
      · have hxy : x = y := charToNat_inj
          (Nat.le_antisymm (Nat.not_lt.mp b1) (Nat.not_lt.mp a1))
        rw [if_neg a1, if_neg b1] at h1
        rw [if_neg b1, if_neg a1] at h2
        rw [hxy, charsLe_antisymm xs ys h1 h2]

instance : IsTotal String pyStrLe :=
  ⟨fun a b => charsLe_total a.data b.data⟩

instance : IsTrans String pyStrLe :=
  ⟨fun a b c h1 h2 => charsLe_trans a.data b.data c.data h1 h2⟩

instance : IsAntisymm String pyStrLe :=
  ⟨fun a b h1 h2 => by
    cases a with
    | mk da =>
      cases b with
      | mk db => exact congrArg String.mk (charsLe_antisymm da db h1 h2)⟩

theorem dictGet?_map_overwrite_ne {β : Type} (d : List (String × β)) (k c : String)
    (v : β) (hne : k ≠ c) :
    dictGet? (d.map (fun p => if p.1 == k then (k, v) else p)) c = dictGet? d c := by
  induction d with
  | nil => rfl
  | cons p d ih =>
    by_cases hpk : p.1 = k
    · have hb : ((p.1 == k) = true) := by simp [hpk]
      rw [List.map_cons, if_pos hb, dictGet?_cons_ne _ _ hne,
        dictGet?_cons_ne _ _ (hpk ▸ hne)]
      exact ih
    · have hb : ¬((p.1 == k) = true) := by simp [hpk]
      rw [List.map_cons, if_neg hb]
      by_cases hpc : p.1 = c
      · rw [dictGet?_cons_self _ _ hpc, dictGet?_cons_self _ _ hpc]
      · rw [dictGet?_cons_ne _ _ hpc, dictGet?_cons_ne _ _ hpc]
        exact ih

theorem dictGet?_append_last_ne {β : Type} (d : List (String × β)) (k c : String)
    (v : β) (hne : k ≠ c) : dictGet? (d ++ [(k, v)]) c = dictGet? d c := by
  induction d with
  | nil => exact dictGet?_cons_ne _ _ hne
  | cons p d ih =>
    rw [List.cons_append]
    by_cases hpc : p.1 = c
    · rw [dictGet?_cons_self _ _ hpc, dictGet?_cons_self _ _ hpc]
    · rw [dictGet?_cons_ne _ _ hpc, dictGet?_cons_ne _ _ hpc]
      exact ih

theorem dictGet?_dictInsert_ne {β : Type} (d : List (String × β)) (k c : String)
    (v : β) (hne : k ≠ c) : dictGet? (dictInsert d k v) c = dictGet? d c := by
  unfold dictInsert
  by_cases hd : d.any (fun p => p.1 == k) = true
  · rw [if_pos hd]
    exact dictGet?_map_overwrite_ne d k c v hne
  · rw [if_neg hd]
    exact dictGet?_append_last_ne d k c v hne

theorem dict_unique_val {β : Type} (d : List (String × β)) (k : String) (a b : β)
    (hnd : (d.map (fun p => p.1)).Nodup) (ha : (k, a) ∈ d) (hb : (k, b) ∈ d) :
    a = b := by
  have h1 := dictGet?_of_mem d k a hnd ha
  have h2 := dictGet?_of_mem d k b hnd hb
  rw [h1] at h2
  exact (Option.some.injEq _ _ ▸ h2)

theorem findOrigKey_mem {β : Type} [BEq β] [LawfulBEq β]
    (opts : List (String × β)) (v : β) (k : String)
    (h : findOrigKey opts v = some k) : (k, v) ∈ opts := by
  unfold findOrigKey at h
  cases hf : opts.find? (fun p => p.2 == v) with
  | none => rw [hf] at h; cases h
  | some p =>
    rw [hf] at h
    have hp : p.2 = v := by
      have := List.find?_some hf
      simpa using this
    have hm := List.mem_of_find?_eq_some hf
    have hk : p.1 = k := by simpa using h
    rw [← hk, ← hp]
    exact hm

theorem findOrigKey_of_nodup (opts : List (String × String)) (k : String)
    (t : String) (htexts : (opts.map (fun p => p.2)).Nodup)
    (hmem : (k, t) ∈ opts) : findOrigKey opts t = some k := by
  unfold findOrigKey
  induction opts with
  | nil => simp at hmem
  | cons p rest ih =>
    simp only [List.map_cons, List.nodup_cons] at htexts
    rcases List.mem_cons.mp hmem with h | h
    · rw [← h]
      simp [List.find?]
    · have hpt : p.2 ≠ t := by
        intro he
        exact htexts.1 (he ▸ List.mem_map.mpr ⟨(k, t), h, rfl⟩)
      have hb : ((p.2 == t) = false) := by simp [hpt]
      simp only [List.find?, hb]
      exact ih htexts.2 h

/-- Once a binding is in the accumulator, folding in further pairs whose
remap keys differ never disturbs it. -/
theorem buildFold_preserve (opts : List (String × String)) :
    ∀ (pairs acc : List (String × String)) (c : String) (nk : String),
      dictGet? acc c = some nk →
      (∀ p ∈ pairs, ∀ k, findOrigKey opts p.2 = some k → k ≠ c) →
      dictGet? (pairs.foldl (fun acc2 kv =>
        match findOrigKey opts kv.2 with
        | some orig_key => dictInsert acc2 orig_key kv.1
        | none => acc2) acc) c = some nk := by
  intro pairs
  induction pairs with
  | nil => intro acc c nk hacc _; exact hacc
  | cons p rest ih =>
    intro acc c nk hacc hkeys
    rw [List.foldl_cons]
    cases hf : findOrigKey opts p.2 with
    | none => exact ih acc c nk hacc (fun q hq => hkeys q (List.mem_cons_of_mem p hq))
    | some k =>
      refine ih _ c nk ?_ (fun q hq => hkeys q (List.mem_cons_of_mem p hq))
      rw [dictGet?_dictInsert_ne _ _ _ _ (hkeys p (List.mem_cons_self p rest) k hf)]
      exact hacc

/-- The central remap fact: with pairwise-distinct option texts, every
option binding `(c, t)` ends up in `value_to_new_key` pointing at a new
key that holds `t` among the shuffled pairs. -/
theorem buildValueToNewKey_lookup (opts : List (String × String))
    (hkeys : (opts.map (fun p => p.1)).Nodup)
    (htexts : (opts.map (fun p => p.2)).Nodup) :
    ∀ (pairs acc : List (String × String)) (c t : String),
      (c, t) ∈ opts →
      (pairs.map (fun p => p.2)).Nodup →
      (∃ nk, (nk, t) ∈ pairs) →
      dictGet? acc c = none →
      ∃ nk, dictGet? (pairs.foldl (fun acc2 kv =>
          match findOrigKey opts kv.2 with
          | some orig_key => dictInsert acc2 orig_key kv.1
          | none => acc2) acc) c = some nk ∧ (nk, t) ∈ pairs := by
  intro pairs
  induction pairs with
  | nil =>
    intro acc c t _ _ hex _
    obtain ⟨nk, hnk⟩ := hex
    simp at hnk
  | cons p rest ih =>
    intro acc c t hmem hnodup hex hacc
    simp only [List.map_cons, List.nodup_cons] at hnodup
    by_cases hvt : p.2 = t
    · have hfk : findOrigKey opts t = some c := findOrigKey_of_nodup opts c t htexts hmem
      rw [List.foldl_cons]
      rw [show findOrigKey opts p.2 = some c from hvt ▸ hfk]
      refine ⟨p.1, ?_, ?_⟩
      · refine buildFold_preserve opts rest _ c p.1 (dictGet?_dictInsert_self acc c p.1)
          (fun q hq k hk hkc => ?_)
        have hqmem : (k, q.2) ∈ opts := findOrigKey_mem opts q.2 k hk
        have hq2t : q.2 = t := by
          rw [hkc] at hqmem
          exact dict_unique_val opts c q.2 t hkeys hqmem hmem
        have hqm : q.2 ∈ rest.map (fun p => p.2) := List.mem_map.mpr ⟨q, hq, rfl⟩
        rw [hq2t, ← hvt] at hqm
        exact hnodup.1 hqm
      · rw [show (p.1, t) = p from by rw [← hvt]]
        exact List.mem_cons_self p rest
    · rw [List.foldl_cons]
      have hex2 : ∃ nk, (nk, t) ∈ rest := by
        obtain ⟨nk, hnk⟩ := hex
        rcases List.mem_cons.mp hnk with h | h
        · exact absurd (congrArg Prod.snd h).symm hvt
        · exact ⟨nk, h⟩
      have hrec : ∀ acc2, dictGet? acc2 c = none →
          ∃ nk, dictGet? (rest.foldl (fun acc3 kv =>
            match findOrigKey opts kv.2 with
            | some orig_key => dictInsert acc3 orig_key kv.1
            | none => acc3) acc2) c = some nk ∧ (nk, t) ∈ rest :=
        fun acc2 hacc2 => ih acc2 c t hmem hnodup.2 hex2 hacc2
      cases hf : findOrigKey opts p.2 with
      | none =>
        obtain ⟨nk, hnk, hmem2⟩ := hrec acc hacc
        exact ⟨nk, hnk, List.mem_cons_of_mem p hmem2⟩
      | some k =>
        have hkc : k ≠ c := by
          intro hke
          have hqmem : (k, p.2) ∈ opts := findOrigKey_mem opts p.2 k hf
          rw [hke] at hqmem
          exact hvt (dict_unique_val opts c p.2 t hkeys hqmem hmem)
        obtain ⟨nk, hnk, hmem2⟩ := hrec (dictInsert acc k p.1)
          (by rw [dictGet?_dictInsert_ne _ _ _ _ hkc]; exact hacc)
        exact ⟨nk, hnk, List.mem_cons_of_mem p hmem2⟩

theorem exc_bind_ok {e a b : Type} (x : a) (f : a → Except e b) :
    (Except.ok (ε := e) x >>= f) = f x := rfl

theorem exc_bind_err {e a b : Type} (err : e) (f : a → Except e b) :
    (Except.error (α := a) err >>= f : Except e b) = Except.error err := rfl


/-! # Claims -/

/-- C6: `shuffle_question_options` returns a new record and does not
mutate its input, even though `dict.copy()` is shallow: after a
successful call the returned question lives at a fresh address, and every
previously allocated object — in particular the original question dict,
its options mapping and its `correct_answer` — reads back unchanged. -/
theorem shuffle_does_not_mutate (h : Heap) (qa : Nat) (stdPerm : List Val → List Val)
    (mapPerm : String → List Val → List Val) (h2 : Heap) (qa2 : Nat)
    (hrun : shuffle_question_optionsH h qa stdPerm mapPerm = some (h2, qa2))
    (hqa : qa < h.next) :
    qa2 ≠ qa ∧ (∀ a, a < h.next → h2.read a = h.read a) ∧ h2.read qa = h.read qa := by
  obtain ⟨hq2, _, hread⟩ := shuffleH_frame h qa stdPerm mapPerm h2 qa2 hrun
  refine ⟨?_, hread, hread qa hqa⟩
  rw [hq2]
  exact Nat.ne_of_gt hqa

/-- Witness for C6 at a concrete one-question heap. -/
theorem shuffle_does_not_mutate_witness :
    c6Run.isSome = true ∧
    (c6Run.map (fun r => (r.1.read 0, r.1.read 1, r.1.read 2)))
      = some (c6Heap.read 0, c6Heap.read 1, c6Heap.read 2) := by
  refine ⟨by decide, ?_⟩
  cases hres : c6Run with
  | none =>
    have hs : c6Run.isSome = true := by decide
    rw [hres] at hs
    exact absurd hs (by simp)
  | some r =>
    obtain ⟨h2, qa2⟩ := r
    have hmut := shuffle_does_not_mutate c6Heap 0 List.reverse (fun _ l => l)
      h2 qa2 hres (by decide)
    simp only [Option.map]
    rw [hmut.2.1 0 (by decide), hmut.2.1 1 (by decide), hmut.2.1 2 (by decide)]

/-- C10: evaluation dispatch is total and exclusive.  A question is
handled by the mapping sub-protocol iff its `correct_answer` is a dict;
a non-mapping question is handled by the multi-select sub-protocol iff
its `correct_answer` has more than one element and by the single-choice
sub-protocol otherwise; a mapping question is never classified as
multiple-choice; and `process_user_answer` routes accordingly, so exactly
one sub-protocol handles each question. -/
theorem dispatch_total_exclusive (q : Question) :
    (is_mapping_question q = true ↔ ∃ m, q.correct_answer = .mapping m) ∧
    (handlerOf q = .mappingH ↔ is_mapping_question q = true) ∧
    (handlerOf q = .multipleChoiceH ↔
      is_mapping_question q = false ∧ 1 < ansLen q.correct_answer) ∧
    (handlerOf q = .singleH ↔
      is_mapping_question q = false ∧ ansLen q.correct_answer ≤ 1) ∧
    (is_mapping_question q = true → is_multiple_choice_question q = false) ∧
    (∀ (form : List (String × String)) (pfx : String),
      process_user_answer q form pfx =
        match handlerOf q with
        | .mappingH => process_mapping_answer q form pfx
        | .multipleChoiceH => process_multiple_choice_answer q form pfx
        | .singleH => process_single_answer q form pfx) := by
  obtain ⟨n, opts, ans⟩ := q
  cases ans with
  | labels ls =>
    by_cases hlen : 1 < ls.length
    · simp [is_mapping_question, is_multiple_choice_question, handlerOf,
        process_user_answer, ansLen, hlen]
    · simp [is_mapping_question, is_multiple_choice_question, handlerOf,
        process_user_answer, ansLen, hlen, Nat.le_of_not_lt hlen]
  | mapping m =>
    simp [is_mapping_question, is_multiple_choice_question, handlerOf,
      process_user_answer, ansLen]

/-- C4 fails in the code (`code_bug`): the spill key is
`md5(timestamp)[:16]`, a deterministic function of the clock reading
alone, so two attempts stored at the same clock reading receive the same
key and the second overwrites the first's cached question list. -/
theorem session_id_same_clock_overwrites :
    ((store_large_session [] "2025-01-01T12:00:00.123456" [Json.str "first"] "immediate").1.session_id
      = (store_large_session
          (store_large_session [] "2025-01-01T12:00:00.123456" [Json.str "first"] "immediate").2
          "2025-01-01T12:00:00.123456" [Json.str "second"] "immediate").1.session_id) ∧
    get_session_questions
      (store_large_session
        (store_large_session [] "2025-01-01T12:00:00.123456" [Json.str "first"] "immediate").2
        "2025-01-01T12:00:00.123456" [Json.str "second"] "immediate").2
      (store_large_session [] "2025-01-01T12:00:00.123456" [Json.str "first"] "immediate").1.toSessionData
      = some [Json.str "second"] := by
  constructor
  · rfl
  · simp [store_large_session, get_session_questions, CompactData.toSessionData,
      dictGet?_dictInsert_self]

/-- C2: the spilled write/read round-trip returns exactly the stored
question list with the blob's progress fields initialized, and a
large-session blob whose key is absent from the cache reads back as the
distinct expired outcome `none`, not a crash or an empty-list default. -/
theorem spill_round_trip :
    (∀ (cache : Cache) (now : String) (questions : List Json) (quiz_mode : String),
      get_session_questions (store_large_session cache now questions quiz_mode).2
          (store_large_session cache now questions quiz_mode).1.toSessionData
        = some questions ∧
      (store_large_session cache now questions quiz_mode).1.current_question = 0 ∧
      (store_large_session cache now questions quiz_mode).1.user_answers = [] ∧
      (store_large_session cache now questions quiz_mode).1.correct_answers = 0 ∧
      (store_large_session cache now questions quiz_mode).1.total_questions
        = questions.length ∧
      (store_large_session cache now questions quiz_mode).1.is_large_session = true) ∧
    (∀ (cache : Cache) (sd : SessionData),
      sd.is_large_session = true →
      (∀ sid, sd.session_id = some sid → dictGet? cache sid = none) →
      get_session_questions cache sd = none) := by
  constructor
  · intro cache now questions quiz_mode
    refine ⟨?_, rfl, rfl, rfl, rfl, rfl⟩
    simp [store_large_session, get_session_questions, CompactData.toSessionData,
      dictGet?_dictInsert_self]
  · intro cache sd h1 h2
    unfold get_session_questions
    rw [h1, if_pos rfl]
    cases hsid : sd.session_id with
    | none => rfl
    | some sid => simp [h2 sid hsid]

/-- Witness for C2's expired-key case: a fabricated key over an empty
cache reads back as `none`. -/
theorem spill_round_trip_witness :
    get_session_questions ([] : Cache)
      { is_large_session := true, session_id := some "0123456789abcdef",
        questions := none } = none :=
  spill_round_trip.2 []
    { is_large_session := true, session_id := some "0123456789abcdef",
      questions := none }
    rfl (fun sid h => by cases h; rfl)

theorem roundHalfEven_abs_le (x : ℚ) : |(roundHalfEven x : ℚ) - x| ≤ 1 / 2 := by
  unfold roundHalfEven
  have h0 : ((Int.floor x : ℤ) : ℚ) ≤ x := Int.floor_le x
  have h1 : x < Int.floor x + 1 := Int.lt_floor_add_one x
  by_cases hlt : x - Int.floor x < 1/2
  · rw [if_pos hlt, abs_le]
    constructor <;> linarith
  · rw [if_neg hlt]
    by_cases hgt : 1/2 < x - Int.floor x
    · rw [if_pos hgt, abs_le]
      constructor <;> push_cast <;> linarith
    · rw [if_neg hgt]
      by_cases hev : Int.floor x % 2 = 0
      · rw [if_pos hev, abs_le]
        constructor <;> linarith
      · rw [if_neg hev, abs_le]
        constructor <;> push_cast <;> linarith

/-- C9: for a completed attempt with `total > 0`, the reported score is
`correct/total*100` rounded to one decimal place (an exact multiple of a
tenth within half a tenth of the true percentage), the certification
label is the ready tier at score ≥ 80, the almost-ready tier at
70 ≤ score < 80 and the needs-more-study tier below 70; in particular 7
of 9 reports 77.8 and the almost-ready tier. -/
theorem score_report (c t : ℕ) (h : 0 < t) :
    (score_percentage c t * 10).den = 1 ∧
    |score_percentage c t - (c : ℚ) / (t : ℚ) * 100| ≤ 1 / 20 ∧
    (80 ≤ score_percentage c t →
      get_certification_level (score_percentage c t)
        = ("Excellent - Ready for the exam", "success")) ∧
    (70 ≤ score_percentage c t ∧ score_percentage c t < 80 →
      get_certification_level (score_percentage c t)
        = ("Good - Almost ready", "warning")) ∧
    (score_percentage c t < 70 →
      get_certification_level (score_percentage c t)
        = ("Needs more study", "danger")) ∧
    score_percentage 7 9 = 778 / 10 ∧
    get_certification_level (score_percentage 7 9)
      = ("Good - Almost ready", "warning") := by
  have hfl : Int.floor (((7 : ℕ) : ℚ) / ((9 : ℕ) : ℚ) * 100 * 10) = 777 := by
    rw [Int.floor_eq_iff]
    constructor <;> norm_num
  have hsc : score_percentage 7 9 = 778 / 10 := by
    unfold score_percentage pyRound1 roundHalfEven
    rw [hfl]
    norm_num
  refine ⟨?_, ?_, ?_, ?_, ?_, hsc, ?_⟩
  · have hmul : score_percentage c t * 10
        = ((roundHalfEven ((c : ℚ) / (t : ℚ) * 100 * 10) : ℤ) : ℚ) := by
      unfold score_percentage pyRound1
      field_simp
    rw [hmul]
    exact Rat.den_intCast _
  · have hb := roundHalfEven_abs_le ((c : ℚ) / (t : ℚ) * 100 * 10)
    have heq : score_percentage c t - (c : ℚ) / (t : ℚ) * 100
        = (((roundHalfEven ((c : ℚ) / (t : ℚ) * 100 * 10) : ℤ) : ℚ)
            - (c : ℚ) / (t : ℚ) * 100 * 10) / 10 := by
      unfold score_percentage pyRound1
      ring
    rw [heq, abs_div, show |(10 : ℚ)| = 10 from by norm_num]
    linarith
  · intro hs
    unfold get_certification_level
    rw [if_pos hs]
  · rintro ⟨h70, h80⟩
    unfold get_certification_level
    rw [if_neg (by linarith), if_pos h70]
  · intro hs
    unfold get_certification_level
    rw [if_neg (by linarith), if_neg (by linarith)]
  · rw [hsc]
    unfold get_certification_level
    rw [if_neg (by norm_num), if_pos (by norm_num)]

/-- Witness for C9 at 7 correct out of 9. -/
theorem score_report_witness :
    (0 < 9) ∧ score_percentage 7 9 = 778 / 10 ∧
    get_certification_level (score_percentage 7 9)
      = ("Good - Almost ready", "warning") :=
  ⟨by decide, (score_report 7 9 (by decide)).2.2.2.2.2.1,
   (score_report 7 9 (by decide)).2.2.2.2.2.2⟩

set_option maxRecDepth 40000 in
/-- C1 as stated is false: the code's estimate multiplies the count by
the serialized size of a sample session dict wrapping one question (108
bytes of fixed overhead on top of the question), not by the question's
own serialized size.  Twenty copies of a 100-byte question are routed to
`spilled` although 100 × 20 = 2000 does not exceed 3000 and 20 does not
exceed 40. -/
theorem storage_decision_counterexample :
    should_use_large_session (List.replicate 20 c1Question) = true ∧
    ¬(3000 < (dumps c1Question).length * 20 ∨
        40 < (List.replicate 20 c1Question).length) := by
  constructor
  · decide
  · decide

set_option maxRecDepth 40000 in
/-- C1 amended: the storage decision chooses spilled exactly when the
estimated size — the serialized size of a sample session dict holding one
representative question, which is the question's serialized size plus 108
bytes of fixed overhead, multiplied by the question count — exceeds 3000
bytes, or the question count exceeds 40; for the synthetic bank whose
single question serializes to 100 bytes, 41 questions route to spilled
and 10 route to inline. -/
theorem storage_decision_amended :
    (∀ questions : List Json,
      (should_use_large_session questions = true ↔
        3000 < (dumps (sampleData questions)).length * questions.length ∨
          40 < questions.length)) ∧
    (∀ (q : Json) (rest : List Json),
      (dumps (sampleData (q :: rest))).length = (dumps q).length + 108) ∧
    should_use_large_session (List.replicate 41 c1Question) = true ∧
    should_use_large_session (List.replicate 10 c1Question) = false ∧
    (dumps c1Question).length = 100 := by
  refine ⟨?_, ?_, by decide, by decide, by decide⟩
  · intro questions
    unfold should_use_large_session estimate_session_size
    cases questions with
    | nil => simp
    | cons q rest => simp
  · intro q rest
    have e1 : (quoteStr "questions").length = 11 := rfl
    have e2 : (quoteStr "quiz_mode").length = 11 := rfl
    have e3 : (quoteStr "immediate").length = 11 := rfl
    have e4 : (quoteStr "current_question").length = 18 := rfl
    have e5 : (quoteStr "user_answers").length = 14 := rfl
    have e6 : (quoteStr "correct_answers").length = 17 := rfl
    have e7 : (toString (0 : Int)).length = 1 := rfl
    have e8 : ("\x7b" : String).length = 1 := rfl
    have e9 : ("\x7d" : String).length = 1 := rfl
    have e10 : (": " : String).length = 2 := rfl
    have e11 : (", " : String).length = 2 := rfl
    have e12 : ("[" : String).length = 1 := rfl
    have e13 : ("]" : String).length = 1 := rfl
    have e14 : ("" : String).length = 0 := rfl
    simp only [sampleData, List.take_succ_cons, List.take_zero, dumps, dumpsList,
      dumpsObj, joinSep, String.length_append, e1, e2, e3, e4, e5, e6, e7, e8,
      e9, e10, e11, e12, e13, e14]
    omega

/-- C3 fails as stated: a requested random count of 0 is falsy in
`get_question_subset`, falls through to the invalid-criteria fallback,
and selects the full bank — not the empty selection — and the orchestrator
then starts the attempt with every question instead of returning the
caller to selection. -/
theorem selection_zero_count_counterexample :
    get_selected_questions smallBank "random" [("num_random", "0")] = .ok smallBank ∧
    get_question_subset smallBank "random" none none (some 0) = .ok smallBank ∧
    smallBank.length = 5 ∧
    start_quiz smallBank (fun q => some q) "immediate" "random" [("num_random", "0")]
      = .ok (.quiz "immediate", smallBank) := by
  refine ⟨by decide, by decide, by decide, by decide⟩

/-- C3 amended: a non-numeric range raises `ValueError` at `int(...)`,
which `start_quiz` catches, redirecting to selection with no attempt; a
range matching no question numbers yields the empty selection, the
attempt is initialised with zero questions and the quiz page immediately
redirects back to selection; a negative random count raises `ValueError`
inside `random.sample`, again caught and redirected; a random count of
exactly 0 is falsy and falls back to selecting the full bank. -/
theorem selection_error_handling :
    (∀ (bank : List Question) (shuf : Question → Option Question)
        (mode : String) (form : List (String × String)) (s : String),
      dictGet? form "start_range" = some s → pyInt? s = none →
      start_quiz bank shuf mode "range" form = .ok (.index, [])) ∧
    (∀ (bank : List Question) (shuf : Question → Option Question)
        (mode slo shi : String) (lo hi : Int),
      pyInt? slo = some lo → pyInt? shi = some hi → lo ≠ 0 → hi ≠ 0 →
      (∀ q ∈ bank, ¬(lo ≤ q.question_number ∧ q.question_number ≤ hi)) →
      bank ≠ [] →
      start_quiz bank shuf mode "range"
          [("start_range", slo), ("end_range", shi)]
        = .ok (.quiz mode, [])) ∧
    quiz_page_route (some []) = .index ∧
    quiz_page_route none = .index ∧
    (∀ (bank : List Question) (shuf : Question → Option Question)
        (mode s : String) (n : Int),
      pyInt? s = some n → n < 0 →
      start_quiz bank shuf mode "random" [("num_random", s)] = .ok (.index, [])) ∧
    (∀ (bank : List Question) (s : String),
      pyInt? s = some 0 →
      get_selected_questions bank "random" [("num_random", s)] = .ok bank) := by
  refine ⟨?_, ?_, rfl, rfl, ?_, ?_⟩
  · intro bank shuf mode form s hget hparse
    unfold start_quiz
    cases hbank : bank.isEmpty with
    | true => rfl
    | false =>
      unfold get_selected_questions formGetInt parseInt
      simp only [hget]
      simp only [hparse]
      rfl
  · intro bank shuf mode slo shi lo hi hlo hhi hlo0 hhi0 hempty hbank
    have hfilter : bank.filter (fun q =>
        decide ((some lo).getD 0 ≤ q.question_number) &&
        decide (q.question_number ≤ (some hi).getD 0)) = [] := by
      rw [List.filter_eq_nil_iff]
      intro q hq
      simp only [Option.getD, Bool.and_eq_true, decide_eq_true_eq]
      intro hcon
      exact hempty q hq ⟨hcon.1, hcon.2⟩
    unfold start_quiz
    rw [if_neg (by simp [hbank])]
    unfold get_selected_questions formGetInt parseInt
    rw [if_pos (show (("range" : String) == "range") = true from rfl)]
    rw [dictGet?_cons_self ("start_range", slo) _ rfl]
    rw [dictGet?_cons_ne ("start_range", slo) _
          (show ("start_range" : String) ≠ "end_range" from by decide),
        dictGet?_cons_self ("end_range", shi) _ rfl]
    simp only [hlo, hhi, exc_bind_ok]
    unfold get_question_subset
    have htr : (("range" == "range") && truthyInt (some lo) && truthyInt (some hi))
        = true := by
      simp [truthyInt, hlo0, hhi0]
    rw [if_neg (by decide), if_pos htr, hfilter]
    rfl
  · intro bank shuf mode s n hparse hneg
    have hmin : min n (bank.length : Int) < 0 :=
      lt_of_le_of_lt (min_le_left _ _) hneg
    unfold start_quiz
    cases hbank : bank.isEmpty with
    | true => rfl
    | false =>
      have htr : (("random" == "random") && truthyInt (some n)) = true := by
        simp only [truthyInt, Bool.and_eq_true, decide_eq_true_eq]
        exact ⟨by decide, by omega⟩
      have hmin2 : (some n).getD 0 ⊓ ((bank.length : Int)) < 0 := hmin
      have hsub : get_question_subset bank "random" none none (some n)
          = .error "Sample larger than population or is negative" := by
        unfold get_question_subset randomSample
        rw [if_neg (show ¬(("random" : String) == "all") = true from by decide)]
        rw [if_neg (show ¬((("random" : String) == "range") && truthyInt none
              && truthyInt none) = true from by decide)]
        rw [if_pos htr, if_pos (Or.inl hmin2)]
      unfold get_selected_questions formGetInt parseInt
      rw [if_neg (show ¬(("random" : String) == "range") = true from by decide),
          if_pos (show (("random" : String) == "random") = true from rfl)]
      rw [dictGet?_cons_self ("num_random", s) _ rfl]
      simp only [hparse, exc_bind_ok, hsub]
      rfl
  · intro bank s hparse
    unfold get_selected_questions formGetInt parseInt
    rw [if_neg (show ¬(("random" : String) == "range") = true from by decide),
        if_pos (show (("random" : String) == "random") = true from rfl)]
    rw [dictGet?_cons_self ("num_random", s) _ rfl]
    simp only [hparse, exc_bind_ok]
    rfl

/-- Witness for C3's amended behaviour on the concrete five-question
bank: non-numeric range, empty range 1000–2000 (spec's own edge case),
negative count, and zero count. -/
theorem selection_error_handling_witness :
    start_quiz smallBank (fun q => some q) "immediate" "range"
      [("start_range", "abc"), ("end_range", "7")] = .ok (.index, []) ∧
    start_quiz smallBank (fun q => some q) "immediate" "range"
      [("start_range", "1000"), ("end_range", "2000")] = .ok (.quiz "immediate", []) ∧
    start_quiz smallBank (fun q => some q) "immediate" "random"
      [("num_random", "-3")] = .ok (.index, []) ∧
    get_selected_questions smallBank "random" [("num_random", "0")]
      = .ok smallBank := by
  refine ⟨?_, ?_, ?_, ?_⟩
  · exact selection_error_handling.1 smallBank _ "immediate" _ "abc" rfl rfl
  · exact selection_error_handling.2.1 smallBank _ "immediate" "1000" "2000"
      1000 2000 rfl rfl (by decide) (by decide) (by decide) (by decide)
  · exact selection_error_handling.2.2.2.2.1 smallBank _ "immediate" "-3" (-3)
      rfl (by decide)
  · exact selection_error_handling.2.2.2.2.2 smallBank "0" rfl

theorem pySort_eq_iff_perm (l1 l2 : List String) :
    pySortStrs l1 = pySortStrs l2 ↔ l1.Perm l2 := by
  constructor
  · intro h
    have p1 := (List.perm_insertionSort pyStrLe l1).symm
    rw [show List.insertionSort pyStrLe l1 = List.insertionSort pyStrLe l2 from h]
      at p1
    exact p1.trans (List.perm_insertionSort pyStrLe l2)
  · intro h
    refine List.eq_of_perm_of_sorted ?_
      (List.sorted_insertionSort pyStrLe l1) (List.sorted_insertionSort pyStrLe l2)
    exact ((List.perm_insertionSort pyStrLe l1).trans h).trans
      (List.perm_insertionSort pyStrLe l2).symm

/-- C7 fails as stated: the evaluator compares the sorted submitted list
with the sorted correct list, which is multiset equality, not set
equality: the submission ['A', 'A', 'B'] for correct set {A, B} has equal
label sets yet is marked incorrect. -/
theorem multiselect_counterexample :
    ((process_multiple_choice_answer multiQuestion
        [("answer", "A"), ("answer", "A"), ("answer", "B")] "").map
      (fun r => r.2.1)) = some false ∧
    (["A", "A", "B"] : List String).toFinset
      = (["A", "B"] : List String).toFinset := by
  constructor
  · decide
  · decide

/-- C7 amended: for every multi-select question and submitted label list
(possibly empty), the verdict is correct iff the submitted labels equal
the correct labels as multisets; in particular the verdict is
order-independent and any extra or missing label fails (no partial
credit). -/
theorem multiselect_verdict (qn : Int) (opts : List (String × String))
    (correct : List String) (form : List (String × String)) (pfx : String) :
    (process_multiple_choice_answer
        { question_number := qn, options := .std opts, correct_answer := .labels correct }
        form pfx).map (fun r => r.2.1)
      = some (decide ((getlist form (choiceFieldName pfx qn)).Perm correct)) := by
  unfold process_multiple_choice_answer
  simp only [Option.map]
  congr 1
  rw [Bool.eq_iff_iff]
  simp only [beq_iff_eq, decide_eq_true_eq]
  exact pySort_eq_iff_perm _ _

/-- C8: for every mapping question satisfying the data-model invariant
(every sub-field has an entry in `correct_answer`) and every submitted
form, the evaluator records each sub-field's value (a missing form field
is recorded as the not-answered marker `none`, never an error) and marks
the question correct iff every sub-field's submitted value equals that
sub-field's entry in `correct_answer` — so one missing or wrong sub-field
fails the whole question, with no partial credit. -/
theorem mapping_verdict (qn : Int) (opts : List (String × List String))
    (corr : List (String × String)) (form : List (String × String)) (pfx : String)
    (hinv : ∀ k ∈ opts.map (fun kv => kv.1), (dictGet? corr k).isSome = true) :
    (process_mapping_answer
        { question_number := qn, options := .mapping opts,
          correct_answer := .mapping corr } form pfx).map (fun r => r.1)
      = some (.mapping (opts.map (fun kv =>
          (kv.1, dictGet? form (mappingFieldName pfx qn kv.1))))) ∧
    (process_mapping_answer
        { question_number := qn, options := .mapping opts,
          correct_answer := .mapping corr } form pfx).map (fun r => r.2.1)
      = some (opts.all (fun kv =>
          dictGet? form (mappingFieldName pfx qn kv.1) == dictGet? corr kv.1)) ∧
    ((opts.all (fun kv => dictGet? form (mappingFieldName pfx qn kv.1)
          == dictGet? corr kv.1)) = true
      ↔ ∀ k ∈ opts.map (fun kv => kv.1),
          dictGet? form (mappingFieldName pfx qn k) = dictGet? corr k) := by
  have key : ∀ (l : List (String × List String)),
      (∀ k ∈ l.map (fun kv => kv.1), (dictGet? corr k).isSome = true) →
      ∃ rows : List (String × Option String × String),
        l.mapM (fun kv => (dictGet? corr kv.1).map (fun c =>
            (kv.1, dictGet? form (mappingFieldName pfx qn kv.1), c)))
          = some rows ∧
        rows.map (fun r => (r.1, r.2.1))
          = l.map (fun kv => (kv.1, dictGet? form (mappingFieldName pfx qn kv.1))) ∧
        rows.all (fun r => r.2.1 == some r.2.2)
          = l.all (fun kv => dictGet? form (mappingFieldName pfx qn kv.1)
              == dictGet? corr kv.1) := by
    intro l
    induction l with
    | nil => exact fun _ => ⟨[], rfl, rfl, rfl⟩
    | cons kv rest ih =>
      intro hl
      obtain ⟨c, hc⟩ := Option.isSome_iff_exists.mp (hl kv.1 (by simp))
      obtain ⟨rows, hrows, hmap, hall⟩ := ih (fun k hk => hl k (by simp [hk]))
      refine ⟨(kv.1, dictGet? form (mappingFieldName pfx qn kv.1), c) :: rows,
        ?_, ?_, ?_⟩
      · simp only [List.mapM_cons, hc, Option.map_some', hrows]
        rfl
      · simp only [List.map_cons, hmap]
      · simp only [List.all_cons, hall, hc]
  obtain ⟨rows, hrows, hmap, hall⟩ := key opts hinv
  have hproc : process_mapping_answer
      { question_number := qn, options := .mapping opts,
        correct_answer := .mapping corr } form pfx
    = some (.mapping (rows.map (fun r => (r.1, r.2.1))),
        rows.all (fun r => r.2.1 == some r.2.2),
        (get_mapping_answer_display
          { question_number := qn, options := .mapping opts,
            correct_answer := .mapping corr }
          (rows.map (fun r => (r.1, r.2.1)))).1,
        (get_mapping_answer_display
          { question_number := qn, options := .mapping opts,
            correct_answer := .mapping corr }
          (rows.map (fun r => (r.1, r.2.1)))).2) := by
    unfold process_mapping_answer
    simp only []
    rw [hrows]
  refine ⟨?_, ?_, ?_⟩
  · rw [hproc]
    simp only [Option.map_some', hmap]
  · rw [hproc]
    simp only [Option.map_some', hall]
  · rw [List.all_eq_true]
    constructor
    · intro hx k hk
      obtain ⟨kv, hkv, hkeq⟩ := List.mem_map.mp hk
      have := hx kv hkv
      rw [beq_iff_eq] at this
      rw [← hkeq]
      exact this
    · intro hx kv hkv
      rw [beq_iff_eq]
      exact hx kv.1 (List.mem_map.mpr ⟨kv, hkv, rfl⟩)

/-- C5 fails as stated: on a standard question with duplicated option
texts, the remap records only the first label holding each text, so the
correct label `B` of `dupTextQuestion` never enters `value_to_new_key`
and the rebuild of `correct_answer` raises `KeyError` (modelled `none`) —
for a value order `random.shuffle` can legitimately produce (here the
identity permutation of the duplicated texts). -/
theorem shuffle_duplicate_counterexample :
    shuffleStandard dupTextQuestion ["x", "x"] = none ∧
    ["x", "x"] = [("A", "x"), ("B", "x")].map (fun p => p.2) ∧
    dupTextQuestion.options = .std [("A", "x"), ("B", "x")] ∧
    dupTextQuestion.correct_answer = .labels ["B"] := by
  refine ⟨by decide, rfl, rfl, rfl⟩

/-- C5 amended: for every standard question whose option texts are
pairwise distinct (the duplicate-text edge case is excluded — there the
remap is ambiguous and can crash, as the counterexample shows), with
dict-unique labels and correct labels drawn from the option labels,
shuffling by any permutation of the texts succeeds, keeps the label list
unchanged, preserves the option texts as a multiset, and maps each
correct label to a label holding exactly the text it marked before; for
every mapping question whose sub-fields all have entries in
`correct_answer`, each sub-field keeps its name, its candidate list is
the shuffled copy (a permutation of the original whenever the shuffler
permutes), and its correct value is carried over verbatim. -/
theorem shuffle_preserves :
    (∀ (qn : Int) (opts : List (String × String)) (corr : List String)
        (sv : List String),
      (opts.map (fun p => p.1)).Nodup →
      (opts.map (fun p => p.2)).Nodup →
      (∀ c ∈ corr, c ∈ opts.map (fun p => p.1)) →
      sv.Perm (opts.map (fun p => p.2)) →
      ∃ newCorr,
        shuffleStandard
          { question_number := qn, options := .std opts,
            correct_answer := .labels corr } sv
          = some { question_number := qn,
                   options := .std ((opts.map (fun p => p.1)).zip sv),
                   correct_answer := .labels newCorr } ∧
        (((opts.map (fun p => p.1)).zip sv).map (fun p => p.1))
          = opts.map (fun p => p.1) ∧
        ((((opts.map (fun p => p.1)).zip sv).map (fun p => p.2))).Perm
          (opts.map (fun p => p.2)) ∧
        List.Forall₂ (fun c c2 =>
          dictGet? ((opts.map (fun p => p.1)).zip sv) c2 = dictGet? opts c)
          corr newCorr) ∧
    (∀ (qn : Int) (opts : List (String × List String))
        (corr : List (String × String)) (perm : String → List String → List String),
      (∀ k ∈ opts.map (fun kv => kv.1), (dictGet? corr k).isSome = true) →
      ∃ corr2,
        shuffleMapping
          { question_number := qn, options := .mapping opts,
            correct_answer := .mapping corr } perm
          = some { question_number := qn,
                   options := .mapping (opts.map (fun kv => (kv.1, perm kv.1 kv.2))),
                   correct_answer := .mapping corr2 } ∧
        List.Forall₂ (fun kv r => r.1 = kv.1 ∧ dictGet? corr kv.1 = some r.2)
          opts corr2 ∧
        ((∀ k l, (perm k l).Perm l) →
          List.Forall₂ (fun kv kv2 => kv2.1 = kv.1 ∧ kv2.2.Perm kv.2) opts
            (opts.map (fun kv => (kv.1, perm kv.1 kv.2))))) := by
  constructor
  · intro qn opts corr sv hkeys htexts hcorr hperm
    have hlen : sv.length = (opts.map (fun p => p.2)).length := hperm.length_eq
    have hlenk : (opts.map (fun p => p.1)).length ≤ sv.length := by
      rw [hlen, List.length_map, List.length_map]
    set pairs := (opts.map (fun p => p.1)).zip sv with hpairs
    have hsnd : pairs.map (fun p => p.2) = sv := by
      rw [hpairs]
      exact List.map_snd_zip _ _ (by rw [hlen, List.length_map, List.length_map])
    have hfst : pairs.map (fun p => p.1) = opts.map (fun p => p.1) := by
      rw [hpairs]
      exact List.map_fst_zip _ _ (by
        rw [hlen, List.length_map, List.length_map])
    have hsvnodup : sv.Nodup := (hperm.nodup_iff).mpr htexts
    have hpairsnodup : (pairs.map (fun p => p.2)).Nodup := by
      rw [hsnd]
      exact hsvnodup
    have hpknodup : (pairs.map (fun p => p.1)).Nodup := by
      rw [hfst]
      exact hkeys
    have hlook : ∀ c ∈ corr, ∃ (t nk : String),
        (c, t) ∈ opts ∧
        dictGet? (buildValueToNewKey opts pairs) c = some nk ∧ (nk, t) ∈ pairs := by
      intro c hc
      obtain ⟨p, hpmem, hpk⟩ := List.mem_map.mp (hcorr c hc)
      have hmem : (c, p.2) ∈ opts := by
        rw [← hpk]
        exact hpmem
      have htmem : p.2 ∈ sv :=
        hperm.mem_iff.mpr (List.mem_map.mpr ⟨p, hpmem, rfl⟩)
      have hin : p.2 ∈ pairs.map (fun q => q.2) := by
        rw [hsnd]
        exact htmem
      obtain ⟨pq, hpqmem, hpq2⟩ := List.mem_map.mp hin
      have hex : ∃ nk, (nk, p.2) ∈ pairs := ⟨pq.1, by rw [← hpq2]; exact hpqmem⟩
      obtain ⟨nk, hnk, hnkmem⟩ := buildValueToNewKey_lookup opts hkeys htexts pairs
        [] c p.2 hmem hpairsnodup hex rfl
      exact ⟨p.2, nk, hmem, hnk, hnkmem⟩
    have key2 : ∀ (cs : List String),
        (∀ c ∈ cs, ∃ (t nk : String), (c, t) ∈ opts ∧
          dictGet? (buildValueToNewKey opts pairs) c = some nk ∧ (nk, t) ∈ pairs) →
        ∃ ncs, cs.mapM (fun c => dictGet? (buildValueToNewKey opts pairs) c)
            = some ncs ∧
          List.Forall₂ (fun c c2 => ∃ t, (c, t) ∈ opts ∧ (c2, t) ∈ pairs) cs ncs := by
      intro cs
      induction cs with
      | nil => exact fun _ => ⟨[], rfl, List.Forall₂.nil⟩
      | cons c rest ih =>
        intro hcs
        obtain ⟨t, nk, hmem, hnk, hnkm⟩ := hcs c (by simp)
        obtain ⟨ncs, hncs, hfa⟩ := ih (fun c2 h2 => hcs c2 (by simp [h2]))
        refine ⟨nk :: ncs, ?_, List.Forall₂.cons ⟨t, hmem, hnkm⟩ hfa⟩
        simp only [List.mapM_cons, hnk, hncs]
        rfl
    obtain ⟨ncs, hncs, hfa⟩ := key2 corr hlook
    refine ⟨ncs, ?_, hfst, by rw [hsnd]; exact hperm, ?_⟩
    · unfold shuffleStandard
      simp only []
      rw [← hpairs, hncs]
    · refine hfa.imp ?_
      intro c c2 hr
      obtain ⟨t, hmem, hpmem⟩ := hr
      rw [dictGet?_of_mem pairs c2 t hpknodup hpmem,
          dictGet?_of_mem opts c t hkeys hmem]
  · intro qn opts corr perm hinv
    have key : ∀ (l : List (String × List String)),
        (∀ k ∈ l.map (fun kv => kv.1), (dictGet? corr k).isSome = true) →
        ∃ rows : List (String × List String × String),
          l.mapM (fun kv => (dictGet? corr kv.1).map
              (fun c => (kv.1, perm kv.1 kv.2, c)))
            = some rows ∧
          rows.map (fun r => (r.1, r.2.1)) = l.map (fun kv => (kv.1, perm kv.1 kv.2)) ∧
          List.Forall₂ (fun kv r => r.1 = kv.1 ∧ dictGet? corr kv.1 = some r.2)
            l (rows.map (fun r => (r.1, r.2.2))) := by
      intro l
      induction l with
      | nil => exact fun _ => ⟨[], rfl, rfl, List.Forall₂.nil⟩
      | cons kv rest ih =>
        intro hl
        obtain ⟨c, hc⟩ := Option.isSome_iff_exists.mp (hl kv.1 (by simp))
        obtain ⟨rows, hrows, hmap, hfa⟩ := ih (fun k hk => hl k (by simp [hk]))
        refine ⟨(kv.1, perm kv.1 kv.2, c) :: rows, ?_, ?_, ?_⟩
        · simp only [List.mapM_cons, hc, Option.map_some', hrows]
          rfl
        · simp only [List.map_cons, hmap]
        · exact List.Forall₂.cons ⟨rfl, hc⟩ hfa
    obtain ⟨rows, hrows, hmap, hfa⟩ := key opts hinv
    refine ⟨rows.map (fun r => (r.1, r.2.2)), ?_, hfa, ?_⟩
    · unfold shuffleMapping
      simp only []
      rw [hrows, ← hmap]
    · intro hp
      clear hfa hmap hrows hinv
      induction opts with
      | nil => exact List.Forall₂.nil
      | cons kv rest ih2 => exact List.Forall₂.cons ⟨rfl, hp kv.1 kv.2⟩ ih2

/-- Witness for C5 at concrete standard and mapping questions. -/
theorem shuffle_preserves_witness :
    (shuffleStandard multiQuestion ["gamma", "alpha", "beta"]).isSome = true ∧
    (shuffleMapping mapQuestion (fun _ l => l.reverse)).isSome = true := by
  constructor
  · unfold multiQuestion
    obtain ⟨nc, heq, _, _, _⟩ := shuffle_preserves.1 1
      [("A", "alpha"), ("B", "beta"), ("C", "gamma")] ["A", "B"]
      ["gamma", "alpha", "beta"] (by decide) (by decide) (by decide) (by decide)
    rw [heq]
    rfl
  · unfold mapQuestion
    obtain ⟨c2, heq, _, _⟩ := shuffle_preserves.2 3
      [("first_slot", ["u", "v"]), ("second_slot", ["w", "z"])]
      [("first_slot", "v"), ("second_slot", "w")] (fun _ l => l.reverse)
      (by decide)
    rw [heq]
    rfl

/-- Witness for C8 on the concrete mapping question with one sub-field
answered correctly and the other missing from the form: the missing
sub-field is recorded as the not-answered marker and the question is
marked incorrect. -/
theorem mapping_verdict_witness :
    (process_mapping_answer mapQuestion [("mapping_first_slot", "v")] "").map
        (fun r => r.1)
      = some (.mapping [("first_slot", some "v"), ("second_slot", none)]) ∧
    (process_mapping_answer mapQuestion [("mapping_first_slot", "v")] "").map
        (fun r => r.2.1)
      = some false := by
  have h := mapping_verdict 3 [("first_slot", ["u", "v"]), ("second_slot", ["w", "z"])]
    [("first_slot", "v"), ("second_slot", "w")] [("mapping_first_slot", "v")] ""
    (by decide)
  exact ⟨h.1.trans (by decide), h.2.1.trans (by decide)⟩

end AwsQuiz
